import Mathlib

/-!
Verification of the skill-gap detection and bullet-synthesis pipeline of
`resume_updater.py` (class `ResumeUpdater`).

The Python source is shallowly embedded: each relevant method becomes an
executable Lean function over `String` / `List Char`.  Python regular
expressions are modelled by a small executable backtracking matcher that
covers exactly the constructs the source uses.  Notes on the embedding:

* Python `\w` (with `re.IGNORECASE` on ASCII input) is modelled as
  ASCII letters, digits and underscore; `\s` as ASCII whitespace; `str.lower`
  as `Char.toLower`.  All string data in the program is ASCII.
* CPython `set` iteration order is implementation defined; sets are modelled
  as insertion-ordered duplicate-free lists.  Membership, duplicate-freeness
  and the final descending-length sort are unaffected by this choice.
* External effects (document loading and mutation, the remote generator call,
  `time.sleep`, saving) are modelled as explicit parameters / result traces;
  the spec designates them as out-of-scope collaborators.
-/

/-- ASCII model of the regex word-character class `\w` ( `[A-Za-z0-9_]` ). -/
def wordChar (c : Char) : Bool :=
  c.isAlpha || c.isDigit || c = '_'

/-- ASCII model of the regex whitespace class `\s`. -/
def pySpace (c : Char) : Bool :=
  c = ' ' || c = '\t' || c = '\n' || c = '\r' || c = '\x0b' || c = '\x0c'

/-- Lower-case a character, modelling Python `str.lower` on ASCII data. -/
def lowChar (c : Char) : Char := c.toLower

/-- Lower-case a string into a character list. -/
def lowList (s : String) : List Char := s.toList.map lowChar

/-- Python `str.strip()` (ASCII whitespace at both ends). -/
def pyStrip (l : List Char) : List Char :=
  ((l.dropWhile pySpace).reverse.dropWhile pySpace).reverse

/-- Python `str.rstrip(',.')`. -/
def pyRstripPunct (l : List Char) : List Char :=
  (l.reverse.dropWhile (fun c => c = ',' || c = '.')).reverse

/-- Is the character at index `j` (if any) a word character? -/
def wordAt (t : List Char) (j : Nat) : Bool :=
  match t[j]? with
  | some c => wordChar c
  | none => false

/-- Does a regex word boundary `\b` hold at position `j` of `t`?
(One side of the position is a word character, the other is not;
positions outside the text count as non-word.) -/
def boundaryAt (t : List Char) (j : Nat) : Bool :=
  (if j = 0 then false else wordAt t (j - 1)) != wordAt t j

/-- One candidate position of the search
`re.search(r'\b' + re.escape(pat) + r'\b', text)`: the escaped pattern is a
literal, so the match is literal equality plus a word boundary on both sides.
`t` and `p` are both already lower-cased by the caller, which models
`re.IGNORECASE`. -/
def boundedMatchAt (t p : List Char) (i : Nat) : Bool :=
  p.isPrefixOf (t.drop i) && boundaryAt t i && boundaryAt t (i + p.length)

/-- `re.search(r'\b' + re.escape(pat) + r'\b', text)` succeeds somewhere
(`t`, `p` already lower-cased). -/
def boundedSearch (t p : List Char) : Bool :=
  (List.range (t.length + 1)).any (fun i => boundedMatchAt t p i)

/-- The spec notion of a whole-word occurrence (`spec §4.2: "found as a
contiguous substring bounded by non-word characters"`): a literal occurrence
whose neighbouring characters (when they exist) are not word characters
(`t`, `p` already lower-cased). -/
def wholeWordAt (t p : List Char) (i : Nat) : Bool :=
  p.isPrefixOf (t.drop i) &&
  (if i = 0 then true else !(wordAt t (i - 1))) &&
  !(wordAt t (i + p.length))

/-- Case-insensitive whole-word presence of `skill` in `text`, following the
spec wording (occurrence bounded by non-word characters or text edges). -/
def wholeWordPresent (skill text : String) : Bool :=
  (List.range ((lowList text).length + 1)).any
    (fun i => wholeWordAt (lowList text) (lowList skill) i)

/-- Case-insensitive `\b…\b` regex search used by the source
(`find_missing_skills`, and step 1 of `extract_all_skills`). -/
def boundedSearchCI (skill text : String) : Bool :=
  boundedSearch (lowList text) (lowList skill)

/-- Embedding of `ResumeUpdater.find_missing_skills`: keep each skill for
which `re.search(rf'\b{re.escape(skill)}\b', resume_text, re.IGNORECASE)`
fails, preserving input order. -/
def find_missing_skills (all_skills : List String) (resume_text : String) :
    List String :=
  all_skills.filter (fun skill => !(boundedSearchCI skill resume_text))

/-- A skill string is nonempty and begins and ends with word characters
(measured after lower-casing, which does not change word-character status
on ASCII data). -/
def wordEdged (skill : String) : Bool :=
  !skill.toList.isEmpty &&
  wordChar (lowChar (skill.toList.headD ' ')) &&
  wordChar (lowChar (skill.toList.reverse.headD ' '))

/-!
## A small executable model of the Python regex constructs used by
`extract_all_skills`

The contextual-phrase and bullet-line patterns of the source use only:
literal alternations, character-class repetitions (greedy and lazy),
a single lazy capture group, `$`, and (for the second bullet pattern) a
line-anchored `^`.  `matchToks` is a continuation-passing backtracking
matcher over that fragment; alternatives are tried left to right, lazy
repetitions shortest first and greedy ones longest first, exactly as the
CPython engine does.  Matching is case-insensitive (literals are stored
lower-cased and input characters are lower-cased before comparison),
while captured text keeps its original case, as `re.findall` with
`re.IGNORECASE` does.
-/

/-- Pattern tokens: a literal alternation, a character-class repetition
with optional upper bound, or the `$` anchor (with its multiline flag). -/
inductive Tok where
  | alts (ss : List (List Char))
  | rep (f : Char → Bool) (lo : Nat) (hi : Option Nat) (isLazy : Bool)
  | dollar (multi : Bool)

/-- Literal alternation from lower-case strings. -/
def lits (ss : List String) : Tok := Tok.alts (ss.map String.toList)

/-- Consume a lower-case literal from the input, case-insensitively. -/
def stripCI : List Char → List Char → Option (List Char)
  | [], s => some s
  | _ :: _, [] => none
  | p :: ps, c :: cs => if lowChar c = p then stripCI ps cs else none

/-- Length of the maximal prefix whose characters satisfy `f`. -/
def prefCount (f : Char → Bool) : List Char → Nat
  | [] => 0
  | c :: cs => if f c then prefCount f cs + 1 else 0

/-- The candidate repetition counts for a class repetition, in the order a
backtracking engine tries them. -/
def repCounts (f : Char → Bool) (lo : Nat) (hi : Option Nat) (isLazy : Bool)
    (s : List Char) : List Nat :=
  let m := match hi with
    | none => prefCount f s
    | some h => min h (prefCount f s)
  if m < lo then []
  else if isLazy then List.range' lo (m - lo + 1)
  else (List.range' lo (m - lo + 1)).reverse

/-- Does `$` hold at this suffix?  Without `re.MULTILINE`: end of input or
just before a final newline; with it: end of input or before any newline. -/
def dollarOK (multi : Bool) (s : List Char) : Bool :=
  if multi then s.isEmpty || s.headD ' ' == '\n'
  else s.isEmpty || s == ['\n']

/-- CPS backtracking matcher for a token sequence.  The fuel argument only
drives structural recursion; `toks.length + 1` fuel is always enough since
each step consumes one token. -/
def matchToks {β : Type} : Nat → List Tok → List Char →
    (List Char → Option β) → Option β
  | 0, _, _, _ => none
  | _ + 1, [], s, k => k s
  | fuel + 1, Tok.alts ss :: rest, s, k =>
      ss.findSome? (fun p => (stripCI p s).bind (fun s2 => matchToks fuel rest s2 k))
  | fuel + 1, Tok.rep f lo hi lz :: rest, s, k =>
      (repCounts f lo hi lz s).findSome? (fun n => matchToks fuel rest (s.drop n) k)
  | fuel + 1, Tok.dollar m :: rest, s, k =>
      if dollarOK m s then matchToks fuel rest s k else none

/-- A whole source pattern: tokens before the (single, lazy) capture group,
the capture-group class with its `{lo,hi}` bounds, and the alternatives of
the tail, plus whether the pattern is anchored at a line start (`^` under
`re.MULTILINE`). -/
structure Pattern where
  anchStart : Bool
  pre : List Tok
  capF : Char → Bool
  capLo : Nat
  capHi : Nat
  post : List (List Tok)

/-- Candidate capture lengths, shortest first (the capture groups in the
source are all lazy). -/
def capCounts (pat : Pattern) (s : List Char) : List Nat :=
  let m := min pat.capHi (prefCount pat.capF s)
  if m < pat.capLo then [] else List.range' pat.capLo (m - pat.capLo + 1)

/-- Try the pattern at the start of `s0`; on success return the captured
characters and how many characters of `s0` the whole match consumed. -/
def tryMatch (pat : Pattern) (s0 : List Char) : Option (List Char × Nat) :=
  matchToks (pat.pre.length + 1) pat.pre s0 (fun s1 =>
    (capCounts pat s1).findSome? (fun n =>
      let s2 := s1.drop n
      pat.post.findSome? (fun alt =>
        matchToks (alt.length + 1) alt s2 (fun s3 =>
          some (s1.take n, s0.length - s3.length)))))

/-- `^`-anchoring check for line-anchored patterns under `re.MULTILINE`. -/
def lineStartOK (pat : Pattern) (chars : List Char) (pos : Nat) : Bool :=
  !pat.anchStart || pos == 0 || chars[pos - 1]? == some '\n'

/-- Scan for non-overlapping matches from left to right, as `re.findall`
does, collecting the capture of each match. -/
def findallAux (pat : Pattern) (chars : List Char) : Nat → Nat → List (List Char)
  | _, 0 => []
  | pos, fuel + 1 =>
    if pos > chars.length then []
    else if lineStartOK pat chars pos then
      match tryMatch pat (chars.drop pos) with
      | some (cap, consumed) =>
          let next := if consumed = 0 then pos + 1 else pos + consumed
          cap :: findallAux pat chars next fuel
      | none => findallAux pat chars (pos + 1) fuel
    else findallAux pat chars (pos + 1) fuel

/-- `re.findall(pattern, text, …)`, returning the group-1 captures. -/
def reFindall (pat : Pattern) (text : List Char) : List (List Char) :=
  findallAux pat text 0 (text.length + 1)

/-- The capture class of the contextual patterns: word characters,
whitespace, and the characters dash, slash, plus, dot and parentheses. -/
def capClassMain (c : Char) : Bool :=
  wordChar c || pySpace c || c = '-' || c = '/' || c = '+' || c = '.' ||
  c = '(' || c = ')'

/-- The capture class of the bullet patterns: ASCII letters and digits,
whitespace, and the characters dash, slash, plus, dot and parentheses. -/
def capClassBullet (c : Char) : Bool :=
  c.isAlpha || c.isDigit || pySpace c || c = '-' || c = '/' || c = '+' ||
  c = '.' || c = '(' || c = ')'

/-- The tail `(?:\s+(?:and|or|,|\.|to|for|in|is|are|will|must|should|including)|\.|$)`
shared by the three contextual patterns (their `$` is not multiline). -/
def contextualTail : List (List Tok) :=
  [[Tok.rep pySpace 1 none false,
    lits ["and", "or", ",", ".", "to", "for", "in", "is", "are", "will",
          "must", "should", "including"]],
   [lits ["."]],
   [Tok.dollar false]]

/-- First contextual pattern of `extract_all_skills`
(`experience/…[\s\w]*?(in|with|of|using)[\s]+(…){2,40}?…`; `skills?` is the
two alternatives `skills`/`skill`). -/
def pattern1 : Pattern :=
  { anchStart := false
    pre := [lits ["experience", "expertise", "proficiency", "knowledge",
                  "understanding", "skills", "skill", "background"],
            Tok.rep (fun c => pySpace c || wordChar c) 0 none true,
            lits ["in", "with", "of", "using"],
            Tok.rep pySpace 1 none false]
    capF := capClassMain, capLo := 2, capHi := 40
    post := contextualTail }

/-- Second contextual pattern (`using/utilize/…[\s]+(…){2,40}?…`). -/
def pattern2 : Pattern :=
  { anchStart := false
    pre := [lits ["using", "utilize", "work with", "working with", "implement",
                  "deploy", "manage", "maintain", "configure", "design",
                  "build", "develop"],
            Tok.rep pySpace 1 none false]
    capF := capClassMain, capLo := 2, capHi := 40
    post := contextualTail }

/-- Third contextual pattern (`strong/…\s+experience/…\s+in/with/of\s+(…)…`). -/
def pattern3 : Pattern :=
  { anchStart := false
    pre := [lits ["strong", "solid", "deep", "extensive", "proven"],
            Tok.rep pySpace 1 none false,
            lits ["experience", "knowledge", "understanding", "expertise"],
            Tok.rep pySpace 1 none false,
            lits ["in", "with", "of"],
            Tok.rep pySpace 1 none false]
    capF := capClassMain, capLo := 2, capHi := 40
    post := contextualTail }

/-- First bullet pattern (`[•\-\*]\s*(…){3,50}?(?:\n|$)` with `re.MULTILINE`). -/
def bulletPattern1 : Pattern :=
  { anchStart := false
    pre := [lits ["•", "-", "*"], Tok.rep pySpace 0 none false]
    capF := capClassBullet, capLo := 3, capHi := 50
    post := [[lits ["\n"]], [Tok.dollar true]] }

/-- Second bullet pattern (`^\s*\d+[\.)]\s*(…){3,50}?(?:\n|$)` with
`re.MULTILINE`). -/
def bulletPattern2 : Pattern :=
  { anchStart := true
    pre := [Tok.rep pySpace 0 none false, Tok.rep Char.isDigit 1 none false,
            lits [".", ")"], Tok.rep pySpace 0 none false]
    capF := capClassBullet, capLo := 3, capHi := 50
    post := [[lits ["\n"]], [Tok.dollar true]] }

/-- The static `known_skills` vocabulary of `extract_all_skills`, transliterated
verbatim (duplicates included, as in the source list). -/
def known_skills : List String := [
  "AWS",
  "Azure",
  "GCP",
  "Google Cloud",
  "Cloud",
  "Multi-cloud",
  "ECS",
  "Fargate",
  "Lambda",
  "EC2",
  "S3",
  "VPC",
  "RDS",
  "DynamoDB",
  "Aurora",
  "CloudFront",
  "Route 53",
  "API Gateway",
  "SNS",
  "SQS",
  "CloudWatch",
  "CloudTrail",
  "AWS Organizations",
  "Service Control Policies",
  "SCPs",
  "Control Tower",
  "AWS Config",
  "Security Hub",
  "GuardDuty",
  "IAM",
  "KMS",
  "Secrets Manager",
  "CloudFormation",
  "CDK",
  "Systems Manager",
  "Parameter Store",
  "Elastic Beanstalk",
  "EKS",
  "EFS",
  "Glacier",
  "Kubernetes",
  "K8s",
  "Docker",
  "Container",
  "Containerd",
  "CRI-O",
  "Helm",
  "ArgoCD",
  "Argo Workflows",
  "Flux",
  "OpenShift",
  "Rancher",
  "Kustomize",
  "Istio",
  "Linkerd",
  "Service Mesh",
  "Jenkins",
  "GitLab",
  "GitLab CI",
  "GitHub",
  "GitHub Actions",
  "Actions",
  "CI/CD",
  "Pipeline",
  "Pipelines",
  "Continuous Integration",
  "Continuous Deployment",
  "Tekton",
  "Bamboo",
  "TeamCity",
  "CircleCI",
  "Travis CI",
  "Azure DevOps",
  "CodePipeline",
  "CodeBuild",
  "CodeDeploy",
  "Terraform",
  "Pulumi",
  "Ansible",
  "Infrastructure as Code",
  "IaC",
  "Chef",
  "Puppet",
  "SaltStack",
  "Vagrant",
  "Python",
  "Bash",
  "Shell",
  "Scripting",
  "Script",
  "PowerShell",
  "Go",
  "Golang",
  "Java",
  "Node.js",
  "JavaScript",
  "TypeScript",
  "Ruby",
  "Perl",
  "Groovy",
  ".NET",
  "C#",
  "Kafka",
  "Apache Kafka",
  "Kinesis",
  "RabbitMQ",
  "Redis",
  "Messaging",
  "ActiveMQ",
  "NATS",
  "Pulsar",
  "Prometheus",
  "Grafana",
  "DataDog",
  "Monitoring",
  "Observability",
  "ELK",
  "Elasticsearch",
  "Logstash",
  "Kibana",
  "Splunk",
  "New Relic",
  "AppDynamics",
  "Dynatrace",
  "Jaeger",
  "Zipkin",
  "Security",
  "DevSecOps",
  "Security governance",
  "Compliance",
  "IQ scripts",
  "SIEM",
  "Vulnerability scanning",
  "Penetration testing",
  "Snyk",
  "Aqua",
  "Twistlock",
  "Falco",
  "OPA",
  "Open Policy Agent",
  "Vault",
  "HashiCorp Vault",
  "SSL",
  "TLS",
  "mTLS",
  "OAuth",
  "SAML",
  "PostgreSQL",
  "MySQL",
  "MongoDB",
  "Database",
  "SQL",
  "NoSQL",
  "Cassandra",
  "CouchDB",
  "MariaDB",
  "Oracle",
  "MS SQL",
  "Redis",
  "API",
  "REST API",
  "GraphQL",
  "gRPC",
  "Microservices",
  "Monolith",
  "BFF",
  "Backend for Frontend",
  "Event-driven",
  "Serverless",
  "SOA",
  "Service-Oriented Architecture",
  "SAFe",
  "Agile",
  "Scrum",
  "Kanban",
  "DevOps",
  "SRE",
  "GitOps",
  "Lean",
  "ITIL",
  "Six Sigma",
  "Git",
  "GitHub",
  "GitLab",
  "Bitbucket",
  "Version control",
  "SVN",
  "Jira",
  "Confluence",
  "ServiceNow",
  "PagerDuty",
  "Maven",
  "Gradle",
  "Ant",
  "npm",
  "yarn",
  "pip",
  "Webpack",
  "Nginx",
  "Apache",
  "HAProxy",
  "Traefik",
  "Envoy",
  "Selenium",
  "JUnit",
  "TestNG",
  "pytest",
  "Jest",
  "Mocha",
  "Load testing",
  "Performance testing",
  "Integration testing",
  "YAML",
  "JSON",
  "XML",
  "HCL",
  "TOML",
  "Linux",
  "Unix",
  "RHEL",
  "CentOS",
  "Ubuntu",
  "Debian",
  "Windows Server",
  "Windows Administration",
  "System Administration",
  "Infrastructure Engineer",
  "Infrastructure Engineering",
  "DNS",
  "Load balancing",
  "CDN",
  "VPN",
  "Firewall",
  "WAF",
  "TCP/IP",
  "HTTP",
  "HTTPS",
  "AI/ML",
  "Machine Learning",
  "AI requirements",
  "ML requirements",
  "Automation",
  "Orchestration",
  "Configuration management",
  "Infrastructure monitoring",
  "Application performance monitoring",
  "Log aggregation",
  "Incident management",
  "Change management",
  "Financial Services"]

/-- Python substring containment `needle in hay` on character lists. -/
def strIn (needle hay : List Char) : Bool :=
  (List.range (hay.length + 1)).any (fun i => needle.isPrefixOf (hay.drop i))

/-- Insert into an insertion-ordered set representation (no-op when the
element is already present). -/
def addUnique {α : Type} [DecidableEq α] (acc : List α) (x : α) : List α :=
  if x ∈ acc then acc else acc ++ [x]

/-- Insertion-ordered duplicate-free model of a Python `set` built by
repeated `add` calls. -/
def orderedSet {α : Type} [DecidableEq α] (l : List α) : List α :=
  l.foldl addUnique []

/-- Insert into a list sorted by non-increasing length, keeping earlier
elements first among equal lengths (a stable descending sort step). -/
def insertLenDesc (x : List Char) : List (List Char) → List (List Char)
  | [] => [x]
  | y :: ys => if x.length < y.length then y :: insertLenDesc x ys else x :: y :: ys

/-- Stable sort by descending length, modelling
`sorted(…, key=len, reverse=True)`. -/
def sortLenDesc : List (List Char) → List (List Char)
  | [] => []
  | x :: xs => insertLenDesc x (sortLenDesc xs)

/-- The tiny stop-word list of the final clean-up step. -/
def stopWords : List (List Char) :=
  ["a", "an", "the", "and", "or"].map String.toList

/-- Step 1 of `extract_all_skills`: direct vocabulary matching with word
boundaries on the lower-cased job-description text, collecting the
canonical spellings. -/
def extractStep1 (jd : List Char) : List (List Char) :=
  (known_skills.filter (fun sk => boundedSearch (jd.map lowChar) (lowList sk))).map
    String.toList

/-- The candidate filter applied to every pattern capture in steps 2 and 3
of `extract_all_skills`: trim (`strip`, `rstrip(',.')`, `strip`), keep when
the result is 3–49 characters long and contains a vocabulary term as a
case-insensitive substring. -/
def extractKeepCand (m : List Char) : Option (List Char) :=
  let cleaned := pyStrip (pyRstripPunct (pyStrip m))
  if 2 < cleaned.length ∧ cleaned.length < 50 ∧
      (known_skills.any (fun known =>
        strIn (lowList known) (cleaned.map lowChar))) = true
  then some cleaned else none

/-- Steps 2 and 3 of `extract_all_skills`: the three contextual patterns
and the two bullet patterns, in source order, with the candidate filter
applied to each capture. -/
def extractFromPatterns (jd : List Char) : List (List Char) :=
  (reFindall pattern1 jd ++ reFindall pattern2 jd ++ reFindall pattern3 jd).filterMap
    extractKeepCand ++
  (reFindall bulletPattern1 jd ++ reFindall bulletPattern2 jd).filterMap
    extractKeepCand

/-- The final clean-up of `extract_all_skills`: re-trim each collected
candidate (`strip` then `rstrip(',.')`), keep it when nonempty, longer
than one character and not a stop word. -/
def extractCleanup (sk : List Char) : Option (List Char) :=
  let cleaned := pyRstripPunct (pyStrip sk)
  if cleaned ≠ [] ∧ 1 < cleaned.length ∧ ¬ (cleaned.map lowChar) ∈ stopWords
  then some cleaned else none

/-- Embedding of `ResumeUpdater.extract_all_skills`: union the vocabulary
matches and the pattern captures into a set, clean the set up, and sort by
descending length. -/
def extract_all_skills (job_description : String) : List String :=
  let jd := job_description.toList
  (sortLenDesc (orderedSet
    ((orderedSet (extractStep1 jd ++ extractFromPatterns jd)).filterMap
      extractCleanup))).map (fun cs => String.mk cs)

/-- The static `skill_templates` catalog of `generate_missing_skills_bullets`,
transliterated verbatim in dict insertion order (keys are unique in the
source, even case-insensitively). -/
def skill_templates : List (String × String) := [
  ("AWS Organizations",
   "Implemented AWS Organizations with multi-account structure and Service Control Policies (SCPs) to enforce security governance and compliance across 50+ AWS accounts"),
  ("Service Control Policies",
   "Designed and deployed Service Control Policies (SCPs) for centralized governance, enforcing security baselines and regulatory compliance"),
  ("SCPs",
   "Configured SCPs to implement guardrails for cloud resource usage and enforce organizational security policies"),
  ("Control Tower",
   "Deployed AWS Control Tower for automated multi-account governance and standardized account provisioning"),
  ("AWS Config",
   "Configured AWS Config rules with automated remediation for continuous compliance monitoring and infrastructure drift detection"),
  ("Security Hub",
   "Integrated AWS Security Hub for centralized security findings aggregation and automated compliance reporting"),
  ("AWS Security Hub",
   "Deployed AWS Security Hub to aggregate security findings from GuardDuty, Inspector, and Config across multiple accounts"),
  ("GuardDuty",
   "Enabled Amazon GuardDuty for intelligent threat detection and continuous security monitoring"),
  ("IAM",
   "Architected fine-grained IAM policies implementing least-privilege access and role-based access control (RBAC)"),
  ("AWS IAM",
   "Designed comprehensive IAM strategy with automated policy validation and periodic access reviews"),
  ("KMS",
   "Implemented AWS KMS for encryption key management and data protection at rest and in transit"),
  ("Secrets Manager",
   "Deployed AWS Secrets Manager for automated credential rotation and secure application secrets management"),
  ("ECS",
   "Architected ECS Fargate deployments for containerized microservices with auto-scaling and service discovery"),
  ("Fargate",
   "Migrated applications to ECS Fargate for serverless container orchestration, reducing infrastructure overhead by 40%"),
  ("Lambda",
   "Developed serverless architectures using AWS Lambda with event-driven processing and automatic scaling"),
  ("EC2",
   "Managed EC2 fleet with automated patching, right-sizing recommendations, and reserved instance optimization"),
  ("EKS",
   "Deployed production EKS clusters with managed node groups, pod security policies, and cluster autoscaling"),
  ("S3",
   "Implemented S3 lifecycle policies, versioning, and cross-region replication for disaster recovery"),
  ("Aurora",
   "Managed Aurora PostgreSQL clusters with automated backups, read replicas, and performance insights"),
  ("Aurora PostgreSQL",
   "Optimized Aurora PostgreSQL databases for high availability with multi-AZ deployment and automated failover"),
  ("RDS",
   "Administered RDS instances with automated backups, performance tuning, and security group hardening"),
  ("DynamoDB",
   "Designed DynamoDB tables with optimized partition keys, GSI/LSI indexes, and on-demand scaling"),
  ("EFS",
   "Deployed EFS for shared persistent storage across containerized applications with automatic scaling"),
  ("VPC",
   "Architected secure VPC designs with private/public subnets, NAT gateways, and transit gateway connectivity"),
  ("CloudFront",
   "Configured CloudFront distributions with WAF integration, custom SSL certificates, and edge caching"),
  ("Route 53",
   "Managed Route 53 hosted zones with health checks, failover routing, and latency-based routing"),
  ("API Gateway",
   "Built REST and WebSocket APIs using API Gateway with Lambda integration and custom authorizers"),
  ("CloudWatch",
   "Implemented CloudWatch dashboards, custom metrics, and automated alerting for infrastructure and application monitoring"),
  ("CloudTrail",
   "Configured CloudTrail for audit logging, compliance tracking, and security forensics"),
  ("Systems Manager",
   "Utilized AWS Systems Manager for patch management, configuration compliance, and remote command execution"),
  ("Parameter Store",
   "Managed application configurations using Parameter Store with encryption and version control"),
  ("Migration",
   "Led cloud migration initiatives from on-premises to AWS with minimal downtime using AWS Migration Hub and Server Migration Service"),
  ("Cloud Migration",
   "Executed large-scale cloud migration projects including lift-and-shift and re-platforming strategies"),
  ("Terraform",
   "Developed reusable Terraform modules for infrastructure provisioning with state management and automated planning"),
  ("CloudFormation",
   "Created CloudFormation templates with nested stacks, custom resources, and automated rollback capabilities"),
  ("CDK",
   "Built infrastructure using AWS CDK with TypeScript for type-safe cloud resource definitions"),
  ("Pulumi",
   "Implemented infrastructure as code using Pulumi with Python for multi-cloud deployments"),
  ("Infrastructure as Code",
   "Championed Infrastructure as Code practices using Terraform and GitOps for version-controlled infrastructure"),
  ("IaC",
   "Implemented IaC best practices with modular designs, drift detection, and automated validation"),
  ("Ansible",
   "Automated server configuration and application deployment using Ansible playbooks with role-based organization"),
  ("Chef",
   "Managed configuration drift using Chef recipes and cookbooks for consistent server provisioning"),
  ("Puppet",
   "Implemented Puppet for configuration management across Linux and Windows server fleets"),
  ("Kubernetes",
   "Architected production Kubernetes clusters with Helm charts, RBAC, network policies, and persistent storage"),
  ("K8s",
   "Managed multi-tenant Kubernetes environments with namespace isolation and resource quotas"),
  ("Docker",
   "Containerized applications using Docker with multi-stage builds, optimized image layers, and security scanning"),
  ("Container",
   "Implemented container orchestration strategies with health checks, rolling updates, and auto-healing"),
  ("Helm",
   "Created Helm charts for application deployment with templated configurations and release management"),
  ("ArgoCD",
   "Deployed ArgoCD for GitOps-based continuous delivery with automated sync and rollback capabilities"),
  ("Argo Workflows",
   "Orchestrated complex CI/CD workflows using Argo Workflows for parallel job execution"),
  ("Flux",
   "Implemented Flux for GitOps automation with automated image updates and Helm release management"),
  ("OpenShift",
   "Administered OpenShift container platform with integrated CI/CD and developer self-service"),
  ("Rancher",
   "Managed multi-cluster Kubernetes deployments using Rancher for centralized cluster management"),
  ("Istio",
   "Configured Istio service mesh for traffic management, security, and observability in microservices"),
  ("Linkerd",
   "Implemented Linkerd for lightweight service mesh with automatic mTLS and traffic splitting"),
  ("Jenkins",
   "Built Jenkins declarative pipelines with shared libraries, automated testing, and blue-green deployments"),
  ("GitHub Actions",
   "Developed GitHub Actions workflows for automated build, test, and deployment with matrix strategies"),
  ("GitLab CI",
   "Implemented GitLab CI/CD pipelines with dynamic environments, artifact management, and pipeline caching"),
  ("GitLab",
   "Managed GitLab repositories with branch protection, merge request approvals, and CI/CD integration"),
  ("CI/CD",
   "Designed end-to-end CI/CD pipelines with automated testing, security scanning, and progressive delivery"),
  ("Pipeline",
   "Optimized CI/CD pipeline performance reducing build times by 60% through parallelization and caching"),
  ("Tekton",
   "Implemented Tekton pipelines for cloud-native CI/CD with reusable tasks and triggers"),
  ("Azure DevOps",
   "Configured Azure DevOps pipelines with YAML definitions and integration with Azure services"),
  ("CircleCI",
   "Built CircleCI workflows with Docker layer caching and parallel test execution"),
  ("CodePipeline",
   "Designed AWS CodePipeline for automated deployment with multi-stage approval workflows"),
  ("CodeBuild",
   "Configured CodeBuild projects with custom build environments and artifact publishing"),
  ("CodeDeploy",
   "Implemented blue/green deployments using CodeDeploy with automated rollback on failure"),
  ("Python",
   "Developed Python automation tools for infrastructure provisioning, log analysis, and API integration"),
  ("Bash",
   "Authored Bash scripts for system administration, backup automation, and deployment orchestration"),
  ("Shell",
   "Created shell scripts for cron jobs, log rotation, and system health monitoring"),
  ("PowerShell",
   "Wrote PowerShell scripts for Windows server automation and Active Directory management"),
  ("Go",
   "Built CLI tools and microservices in Go for high-performance infrastructure automation"),
  ("Golang",
   "Developed concurrent applications in Golang for distributed systems and API services"),
  ("Groovy",
   "Scripted Jenkins shared libraries using Groovy for reusable pipeline components"),
  ("Node.js",
   "Built serverless functions and APIs using Node.js with Express framework"),
  ("Prometheus",
   "Deployed Prometheus for metrics collection with custom exporters and alerting rules"),
  ("Grafana",
   "Created Grafana dashboards for real-time infrastructure and application performance visualization"),
  ("Loki",
   "Implemented Grafana Loki for scalable log aggregation and correlation with metrics and traces"),
  ("Tempo",
   "Deployed Grafana Tempo for distributed tracing with seamless Grafana integration and span storage"),
  ("DataDog",
   "Implemented DataDog for full-stack observability with APM, logs, and infrastructure monitoring"),
  ("ELK",
   "Built centralized logging platform using ELK stack with custom parsers and retention policies"),
  ("Elasticsearch",
   "Managed Elasticsearch clusters for log aggregation and full-text search capabilities"),
  ("Splunk",
   "Configured Splunk for security event correlation and compliance reporting"),
  ("New Relic",
   "Integrated New Relic APM for application performance monitoring and transaction tracing"),
  ("Jaeger",
   "Implemented distributed tracing using Jaeger for microservices troubleshooting"),
  ("Kafka",
   "Architected Kafka clusters for high-throughput event streaming with topic partitioning and replication"),
  ("Apache Kafka",
   "Managed Apache Kafka deployments with Schema Registry and Kafka Connect for data integration"),
  ("Kinesis",
   "Built real-time data pipelines using Kinesis Data Streams with Lambda consumers"),
  ("RabbitMQ",
   "Deployed RabbitMQ for reliable message queuing with high availability and clustering"),
  ("Redis",
   "Implemented Redis for caching, session management, and pub/sub messaging patterns"),
  ("PostgreSQL",
   "Administered PostgreSQL databases with replication, backup strategies, and query optimization"),
  ("MySQL",
   "Managed MySQL databases with master-slave replication and performance tuning"),
  ("MongoDB",
   "Deployed MongoDB replica sets with sharding for horizontal scalability"),
  ("SQL",
   "Optimized complex SQL queries and designed normalized database schemas"),
  ("NoSQL",
   "Architected NoSQL solutions for high-scale applications with eventual consistency patterns"),
  ("DevSecOps",
   "Integrated security into CI/CD pipelines with SAST/DAST scanning and vulnerability management"),
  ("Security governance",
   "Established security governance frameworks with automated compliance checks and audit trails"),
  ("Compliance",
   "Ensured SOC2, HIPAA, and PCI-DSS compliance through automated controls and regular audits"),
  ("IQ scripts",
   "Developed IQ scripts for custom security policy validation and automated compliance reporting"),
  ("Snyk",
   "Integrated Snyk for container and dependency vulnerability scanning in CI/CD pipelines"),
  ("Vault",
   "Deployed HashiCorp Vault for secrets management with dynamic credentials and encryption as a service"),
  ("HashiCorp Vault",
   "Implemented Vault for centralized secrets storage with automated secret rotation"),
  ("OPA",
   "Configured Open Policy Agent for policy-based access control in Kubernetes"),
  ("Microservices",
   "Designed microservices architecture with service discovery, circuit breakers, and event-driven communication"),
  ("API",
   "Built RESTful APIs with OpenAPI specifications, rate limiting, and OAuth2 authentication"),
  ("REST API",
   "Developed REST APIs following best practices with versioning and comprehensive documentation"),
  ("GraphQL",
   "Implemented GraphQL APIs with schema stitching and efficient data fetching"),
  ("Serverless",
   "Architected serverless applications using Lambda, API Gateway, and DynamoDB for auto-scaling"),
  ("Event-driven",
   "Designed event-driven architectures using SNS/SQS with loose coupling and async processing"),
  ("BFF",
   "Implemented Backend for Frontend pattern for optimized mobile and web API experiences"),
  ("Agile",
   "Led Agile development practices with sprint planning, daily standups, and retrospectives"),
  ("SAFe",
   "Practiced SAFe Agile framework for large-scale program coordination and release planning"),
  ("Scrum",
   "Facilitated Scrum ceremonies as Scrum Master ensuring team velocity and continuous improvement"),
  ("DevOps",
   "Championed DevOps culture fostering collaboration between development and operations teams"),
  ("GitOps",
   "Implemented GitOps principles using Git as single source of truth for declarative infrastructure"),
  ("SRE",
   "Applied Site Reliability Engineering practices with SLOs, error budgets, and blameless postmortems"),
  ("Git",
   "Managed Git workflows with branching strategies, pull request reviews, and merge conflict resolution"),
  ("GitHub",
   "Administered GitHub organizations with branch protection rules and required status checks"),
  ("Jira",
   "Tracked project delivery using Jira with custom workflows and automated reporting"),
  ("Confluence",
   "Maintained technical documentation in Confluence for runbooks and architecture decisions"),
  ("ServiceNow",
   "Managed incident and change requests through ServiceNow with ITIL compliance"),
  ("Nginx",
   "Configured Nginx as reverse proxy and load balancer with SSL termination and rate limiting"),
  ("Apache",
   "Administered Apache web servers with virtual hosts, mod_rewrite rules, and security hardening"),
  ("HAProxy",
   "Deployed HAProxy for high-availability load balancing with health checks and session persistence"),
  ("Selenium",
   "Automated browser testing using Selenium WebDriver for end-to-end UI validation"),
  ("pytest",
   "Wrote comprehensive unit and integration tests using pytest with fixtures and mocking"),
  ("Load testing",
   "Performed load testing using JMeter to identify performance bottlenecks and capacity limits"),
  ("DNS",
   "Managed DNS infrastructure with DNSSEC, zone transfers, and GeoDNS for global traffic distribution"),
  ("Load balancing",
   "Implemented application load balancing with health checks and sticky sessions"),
  ("VPN",
   "Configured site-to-site and client VPN solutions for secure remote access"),
  ("SSL",
   "Managed SSL/TLS certificates with automated renewal using Let\x27s Encrypt and ACM"),
  ("Linux",
   "Administered Linux servers (RHEL, Ubuntu) with kernel tuning, security patching, and troubleshooting"),
  ("RHEL",
   "Managed Red Hat Enterprise Linux systems with subscription management and satellite integration"),
  ("Ubuntu",
   "Deployed Ubuntu server infrastructure with unattended upgrades and landscape management"),
  ("AWS cost optimization",
   "Reduced AWS costs by 35% through reserved instances, spot instances, and resource right-sizing"),
  ("cost optimization",
   "Implemented FinOps practices with cost allocation tags, budget alerts, and optimization recommendations"),
  ("Automation",
   "Automated repetitive operational tasks reducing manual effort by 70% and improving reliability"),
  ("Orchestration",
   "Orchestrated complex multi-tier application deployments with zero-downtime strategies")]

/-- Case-insensitive string equality (`skill_lower == key.lower()`). -/
def lowEqStr (a b : String) : Bool := lowList a == lowList b

/-- The per-skill template lookup performed by the categorisation loop of
`generate_missing_skills_bullets`: first an exact case-insensitive match
over the catalog in insertion order, then a bidirectional substring
(partial) match, first hit wins. -/
def matchTemplate (skill : String) : Option String :=
  match skill_templates.find? (fun p => lowEqStr skill p.1) with
  | some p => some p.2
  | none =>
    match skill_templates.find? (fun p =>
        strIn (lowList skill) (lowList p.1) || strIn (lowList p.1) (lowList skill)) with
    | some p => some p.2
    | none => none

/-- The categorisation loop of `generate_missing_skills_bullets`: returns
the template bullets (with the uniform marker prefix), the matched skills
and the unmatched skills, each in input order. -/
def categorize : List String → List String × List String × List String
  | [] => ([], [], [])
  | s :: rest =>
    let r := categorize rest
    match matchTemplate s with
    | some t => (("•   " ++ t) :: r.1, s :: r.2.1, r.2.2)
    | none => (r.1, r.2.1, s :: r.2.2)

/-- Split a character list at newline characters (`str.split('\n')`). -/
def splitNL : List Char → List (List Char)
  | [] => [[]]
  | c :: cs =>
    if c = '\n' then [] :: splitNL cs
    else
      match splitNL cs with
      | [] => [[c]]
      | l :: ls => (c :: l) :: ls

/-- The sequential bullet-marker stripping loop of
`generate_bullets_with_claude` (each marker checked once, in order; a
stripped line is re-trimmed before the next marker is checked). -/
def stripMarkers (line : List Char) : List Char :=
  ['•', '-', '*', '▪', '○', '●', '→'].foldl
    (fun l p =>
      match l with
      | [] => l
      | c :: cs => if c = p then pyStrip cs else l)
    line

/-- `re.sub(r'^\d+[\.)]\s*', '', line)`: drop a leading digit run followed
by a dot or closing parenthesis and trailing whitespace, when present. -/
def stripNumbering (ln : List Char) : List Char :=
  let d := prefCount Char.isDigit ln
  if 1 ≤ d then
    match ln[d]? with
    | some c =>
      if c = '.' ∨ c = ')' then (ln.drop (d + 1)).dropWhile pySpace else ln
    | none => ln
  else ln

/-- Index of the first occurrence of a double star, if any. -/
def findDoubleStar : List Char → Option Nat
  | [] => none
  | [_] => none
  | a :: b :: rest =>
    if a = '*' ∧ b = '*' then some 0
    else (findDoubleStar (b :: rest)).map (fun n => n + 1)

/-- `re.sub(r'\*\*(.*?)\*\*', r'\1', line)`: remove markdown bold markers,
keeping the (lazily matched) inner text, left to right without overlap. -/
def removeBold : Nat → List Char → List Char
  | 0, l => l
  | fuel + 1, l =>
    match findDoubleStar l with
    | none => l
    | some i =>
      let tailAfter := l.drop (i + 2)
      match findDoubleStar tailAfter with
      | none => l
      | some j =>
        l.take i ++ tailAfter.take j ++ removeBold fuel (tailAfter.drop (j + 2))

/-- Word count as produced by Python `str.split()` (whitespace runs). -/
def countWordsAux : List Char → Bool → Nat
  | [], _ => 0
  | c :: cs, inWord =>
    if pySpace c then countWordsAux cs false
    else (if inWord then 0 else 1) + countWordsAux cs true

/-- Number of whitespace-separated words in a line. -/
def countWords (l : List Char) : Nat := countWordsAux l false

/-- The response-parsing loop of `generate_bullets_with_claude`: split the
response into lines, trim each line, strip bullet markers, numbering and
markdown bold, and keep nonempty lines of at least 8 words. -/
def parseClaudeBullets (content : List Char) : List (List Char) :=
  (splitNL content).filterMap (fun rawLine =>
    let l1 := pyStrip rawLine
    let l2 := stripMarkers l1
    let l3 := stripNumbering l2
    let l4 := removeBold (l3.length + 1) l3
    if l4 ≠ [] ∧ 8 ≤ countWords l4 then some l4 else none)

/-- Outcome of a single attempt of the retry loop.  The external response
for the attempt is an input (`none` models a raised network/API error);
the body models the source faithfully: empty content raises, parsed
bullets below half the requested count raise, otherwise the first
`len(skills_to_generate)` bullets are returned.  (`len(bullets) < n * 0.5`
is exactly `2 * len(bullets) < n` for integer counts.) -/
def attemptOutcome (skillsToGen : List String) (resp : Option String) :
    Option (List String) :=
  match resp with
  | none => none
  | some raw =>
    let content := pyStrip raw.toList
    if content = [] then none
    else
      let bullets := parseClaudeBullets content
      if bullets.length * 2 < skillsToGen.length then none
      else some ((bullets.take skillsToGen.length).map (fun cs => String.mk cs))

/-- The `for attempt in range(max_retries)` loop of
`generate_bullets_with_claude` (`max_retries = 5`, `base_wait = 2`).
Returns the result together with the trace of `time.sleep` delays
(`base_wait * 2 ** attempt` after each failed attempt except the last);
`Except.error` models the final `RuntimeError`.  The fuel argument
(started at 5) drives the recursion. -/
def claudeAttempts (skillsToGen : List String) (responses : Nat → Option String) :
    Nat → Nat → Except Unit (List String) × List Nat
  | _, 0 => (Except.error (), [])
  | attempt, fuel + 1 =>
    match attemptOutcome skillsToGen (responses attempt) with
    | some bs => (Except.ok bs, [])
    | none =>
      if attempt < 4 then
        let r := claudeAttempts skillsToGen responses (attempt + 1) fuel
        (r.1, (2 * 2 ^ attempt) :: r.2)
      else (Except.error (), [])

/-- Embedding of `ResumeUpdater.generate_bullets_with_claude`.  The remote
API is an input: `responses a` is the text content returned on attempt `a`
(`none` when the call raises).  Empty input short-circuits to an empty
result; a missing client raises; otherwise at most 10 skills are requested
per call and the 5-attempt retry loop runs.  The exception message strings
are not modelled (`Except.error ()`). -/
def generate_bullets_with_claude (clientPresent : Bool)
    (missing_skills : List String) (responses : Nat → Option String) :
    Except Unit (List String) × List Nat :=
  if missing_skills.isEmpty then (Except.ok [], [])
  else if !clientPresent then (Except.error (), [])
  else claudeAttempts (missing_skills.take 10) responses 0 5

/-- Embedding of `ResumeUpdater.generate_missing_skills_bullets`.  `client`
is the optional Claude client together with the per-attempt response
oracle; `none` models an unset `ANTHROPIC_API_KEY`.  The body follows the
source: truncate to 15 skills, categorise against the template catalog
(exact match first, then partial), return the template bullets when
everything matched; otherwise a missing client raises `RuntimeError`
(line 575) and an API failure raises after the retries — both exceptions
are caught by the method's own broad `except`, which returns the empty
list. -/
def generate_missing_skills_bullets (missing_skills : List String)
    (client : Option (Nat → Option String)) : List String :=
  if missing_skills.isEmpty then []
  else
    let skills_to_process := missing_skills.take 15
    let cat := categorize skills_to_process
    let template_bullets := cat.1
    let unmatched_skills := cat.2.2
    if unmatched_skills.isEmpty then template_bullets
    else
      match client with
      | none => []
      | some responses =>
        match (generate_bullets_with_claude true unmatched_skills responses).1 with
        | Except.error _ => []
        | Except.ok raw =>
          template_bullets ++ raw.map (fun b =>
            if b.toList.headD ' ' = '•' then b else "•   " ++ b)

/-- The `requirements` dictionary produced by `parse_requirements`. -/
structure Requirements where
  cloud_services : List String
  containers : List String
  cicd_tools : List String
  programming : List String
  databases : List String
  monitoring : List String
  messaging : List String
  other_skills : List String
  methodologies : List String
  missing_skills : List String
  all_extracted_skills : List String
deriving Repr, DecidableEq

/-- Embedding of `ResumeUpdater.parse_requirements`.  The resume text (a
join of the loaded document's paragraph texts) is passed explicitly.
Extracted skills are computed, the gap list is truncated to 20, and the
category lists are filled by case-insensitive substring triggers in source
order. -/
def parse_requirements (requirements_text resume_text : String) : Requirements :=
  let all_extracted := extract_all_skills requirements_text
  let missing := find_missing_skills all_extracted resume_text
  let rl := lowList requirements_text
  let has : String → Bool := fun w => strIn w.toList rl
  { cloud_services :=
      (if has "ecs" || has "fargate" then ["ECS Fargate"] else []) ++
      (if has "lambda" || has "serverless" then ["Lambda"] else []) ++
      (if has "aurora" then ["Aurora PostgreSQL"] else []) ++
      (if has "dynamodb" then ["DynamoDB"] else []) ++
      (if has "kinesis" then ["Kinesis"] else [])
    containers :=
      (if has "kubernetes" || has "k8s" then ["Kubernetes"] else []) ++
      (if has "docker" then ["Docker"] else []) ++
      (if has "helm" then ["Helm"] else []) ++
      (if has "argocd" then ["ArgoCD"] else [])
    cicd_tools :=
      (if has "jenkins" then ["Jenkins"] else []) ++
      (if has "github actions" then ["GitHub Actions"] else []) ++
      (if has "gitlab" then ["GitLab CI/CD"] else [])
    programming := []
    databases :=
      (if has "postgres" then ["PostgreSQL"] else []) ++
      (if has "mysql" then ["MySQL"] else []) ++
      (if has "mongodb" then ["MongoDB"] else [])
    monitoring :=
      (if has "prometheus" then ["Prometheus"] else []) ++
      (if has "grafana" then ["Grafana"] else [])
    messaging := if has "kafka" then ["Apache Kafka"] else []
    other_skills :=
      (if has "microservices" then ["microservices"] else []) ++
      (if has "bff" then ["BFF"] else [])
    methodologies := if has "safe" then ["SAFe Agile"] else []
    missing_skills := missing.take 20
    all_extracted_skills := all_extracted }

/-- The classification produced by `verify_keywords_added`. -/
structure Verification where
  added : List String
  already_present : List String
  not_added : List String
deriving Repr, DecidableEq

/-- Embedding of `ResumeUpdater.verify_keywords_added`: classify each
missing skill by case-insensitive substring presence in the original and
updated texts. -/
def verify_keywords_added (original_text updated_text : String)
    (missing_skills : List String) : Verification :=
  let inOrig : String → Bool := fun s => strIn (lowList s) (lowList original_text)
  let inUpd : String → Bool := fun s => strIn (lowList s) (lowList updated_text)
  { added := missing_skills.filter (fun s => inUpd s && !(inOrig s))
    already_present := missing_skills.filter (fun s => inUpd s && inOrig s)
    not_added := missing_skills.filter (fun s => !(inUpd s)) }

/-- The environment of one `update_resume` run: the loaded document's
paragraph texts, the document-mutator collaborators (out of scope per the
spec, modelled as oracles mapping paragraphs and bullets to new
paragraphs), the output path produced by `save_resume`, and the optional
Claude client with its response oracle. -/
structure DocEnv where
  paragraphs : List String
  insertSummary : List String → List String → List String
  insertJob : List String → List String → List String
  savedPath : String
  client : Option (Nat → Option String)

/-- `'\n'.join(p.text for p in doc.paragraphs)`. -/
def joinNL (ps : List String) : String := String.intercalate "\n" ps

/-- Embedding of `ResumeUpdater.update_resume`.  Control flow follows the
source: when neither missing skills nor cloud services are found the run
returns `(None, [])`; otherwise bullets are generated, split 40/60 between
the summary and most-recent-job insertion points (each insertion is a
no-op on an empty bullet list, and the insertion mechanics themselves are
the document-mutator oracles), `update_technical_skills` touches only
tables (not paragraphs, hence not the verification text), keywords are
verified against the updated paragraph text, the document is saved and
`(output_path, added_keywords)` is returned. -/
def update_resume (env : DocEnv) (requirements_text : String) :
    Option String × List String :=
  let original_text := joinNL env.paragraphs
  let requirements := parse_requirements requirements_text original_text
  if requirements.missing_skills.isEmpty ∧ requirements.cloud_services.isEmpty then
    (none, [])
  else
    let missing_skills := requirements.missing_skills
    let generated_bullets :=
      if missing_skills.isEmpty then []
      else generate_missing_skills_bullets missing_skills env.client
    let split : List String × List String :=
      if generated_bullets.isEmpty then ([], [])
      else
        let split_point := max 1 (generated_bullets.length * 4 / 10)
        (generated_bullets.take split_point, generated_bullets.drop split_point)
    let summary_bullets := split.1
    let job_bullets := split.2
    let doc1 := if summary_bullets.isEmpty then env.paragraphs
                else env.insertSummary env.paragraphs summary_bullets
    let doc2 := if job_bullets.isEmpty then doc1 else env.insertJob doc1 job_bullets
    let updated_text := joinNL doc2
    let verification := verify_keywords_added original_text updated_text missing_skills
    (some env.savedPath, verification.added)
/-- Sixteen skills, each an exact catalog key (used to exercise the
15-skill truncation of the bullet synthesizer). -/
def sixteenCatalogSkills : List String :=
  ["Terraform", "Kubernetes", "Docker", "Jenkins", "Ansible", "Python", "Bash",
   "Git", "Linux", "Nginx", "Redis", "Kafka", "Prometheus", "Grafana", "Helm",
   "Istio"]

/-- A concrete run environment: a one-paragraph document, identity
document-mutator oracles, a fixed output path, and no Claude client. -/
def plainEnv : DocEnv :=
  { paragraphs := ["placeholder resume"]
    insertSummary := fun d _ => d
    insertJob := fun d _ => d
    savedPath := "out.docx"
    client := none }

/-- A second concrete run environment with a different document and path. -/
def secondEnv : DocEnv :=
  { paragraphs := ["another resume text"]
    insertSummary := fun d _ => d
    insertJob := fun d _ => d
    savedPath := "saved.docx"
    client := none }

theorem anyCongr {α : Type} {xs : List α} {f g : α → Bool}
    (h : ∀ x ∈ xs, f x = g x) : xs.any f = xs.any g := by
  induction xs with
  | nil => rfl
  | cons a as ih =>
    simp only [List.any_cons]
    rw [h a (by simp), ih (fun x hx => h x (by simp [hx]))]

theorem wordAt_eq_true_of_prefix {t p : List Char} {i k : Nat}
    (hpre : p.isPrefixOf (t.drop i) = true) (hk : k < p.length)
    (hw : wordChar p[k] = true) : wordAt t (i + k) = true := by
  obtain ⟨r, hr⟩ := List.isPrefixOf_iff_prefix.mp hpre
  have hget : (t.drop i)[k]? = some p[k] := by
    rw [← hr, List.getElem?_append_left hk]
    exact List.getElem?_eq_getElem hk
  have hidx : t[i + k]? = some p[k] := by
    rw [← List.getElem?_drop]
    exact hget
  simp [wordAt, hidx, hw]

theorem boundedMatchAt_eq_wholeWordAt {t p : List Char} {i : Nat}
    (hp : p ≠ []) (hhead : wordChar (p.head hp) = true)
    (hlast : wordChar (p.getLast hp) = true) :
    boundedMatchAt t p i = wholeWordAt t p i := by
  by_cases hpre : p.isPrefixOf (t.drop i) = true
  · -- the literal part matches; compare the boundary conditions
    have h0 : 0 < p.length := List.length_pos.mpr hp
    have hfirst : wordAt t (i + 0) = true := by
      apply wordAt_eq_true_of_prefix hpre h0
      have : p[0] = p.head hp := by
        cases p with
        | nil => exact absurd rfl hp
        | cons a l => rfl
      rw [this]; exact hhead
    rw [Nat.add_zero] at hfirst
    have hlastIdx : p.length - 1 < p.length := by omega
    have hlast' : wordAt t (i + (p.length - 1)) = true := by
      apply wordAt_eq_true_of_prefix hpre hlastIdx
      have : p[p.length - 1] = p.getLast hp := by
        rw [List.getLast_eq_getElem]
      rw [this]; exact hlast
    have hend : i + p.length - 1 = i + (p.length - 1) := by omega
    have hne : i + p.length ≠ 0 := by omega
    unfold boundedMatchAt wholeWordAt boundaryAt
    rw [hpre]
    simp only [Bool.true_and, hne, if_neg hne]
    rw [hend, hlast']
    by_cases hi : i = 0
    · subst hi
      simp [hfirst]
    · simp only [if_neg hi, hfirst]
      cases h : wordAt t (i - 1) <;> cases h2 : wordAt t (0 + p.length) <;>
        simp [h, h2, Nat.zero_add]
  · have hpre' : p.isPrefixOf (t.drop i) = false := by
      rw [Bool.eq_false_iff]
      exact hpre
    unfold boundedMatchAt wholeWordAt
    rw [hpre']
    simp

theorem wordEdged_facts {skill : String} (h : wordEdged skill = true) :
    ∃ (a d : Char) (as ds : List Char),
      skill.toList = a :: as ∧ skill.toList.reverse = d :: ds ∧
      wordChar (lowChar a) = true ∧ wordChar (lowChar d) = true := by
  unfold wordEdged at h
  simp only [Bool.and_eq_true, Bool.not_eq_true'] at h
  obtain ⟨⟨hne, hh⟩, hl⟩ := h
  obtain ⟨a, as, hst⟩ : ∃ a as, skill.toList = a :: as := by
    cases hc : skill.toList
    · rw [hc] at hne
      simp at hne
    · exact ⟨_, _, rfl⟩
  obtain ⟨d, ds, hrv⟩ : ∃ d ds, skill.toList.reverse = d :: ds := by
    cases hc : skill.toList.reverse
    · have hnil : skill.toList = [] := by
        have := congrArg List.reverse hc
        simpa using this
      rw [hnil] at hne
      simp at hne
    · exact ⟨_, _, rfl⟩
  refine ⟨a, d, as, ds, hst, hrv, ?_, ?_⟩
  · rw [hst] at hh
    simpa using hh
  · rw [hrv] at hl
    simpa using hl

theorem boundedSearch_eq_wholeWord {skill text : String}
    (h : wordEdged skill = true) :
    boundedSearchCI skill text = wholeWordPresent skill text := by
  unfold boundedSearchCI wholeWordPresent boundedSearch
  apply anyCongr
  intro i _
  obtain ⟨a, d, as, ds, hst, hrv, ha, hd⟩ := wordEdged_facts h
  have hpl : lowList skill = lowChar a :: as.map lowChar := by
    unfold lowList
    rw [hst]
    rfl
  have hp : lowList skill ≠ [] := by rw [hpl]; simp
  have hq : (lowList skill).reverse = lowChar d :: ds.map lowChar := by
    unfold lowList
    rw [← List.map_reverse, hrv]
    rfl
  have hpr : (lowList skill).reverse ≠ [] := by rw [hq]; simp
  have hhead : wordChar ((lowList skill).head hp) = true := by
    have h1 : (lowList skill).head? = some (lowChar a) := by rw [hpl]; rfl
    rw [List.head?_eq_head hp] at h1
    rw [Option.some.injEq] at h1
    rw [h1]
    exact ha
  have hlast : wordChar ((lowList skill).getLast hp) = true := by
    have h1 : (lowList skill).reverse.head hpr = (lowList skill).getLast hp := by
      rw [List.head_reverse]
    have h2 : (lowList skill).reverse.head? = some (lowChar d) := by rw [hq]; rfl
    rw [List.head?_eq_head hpr] at h2
    rw [Option.some.injEq] at h2
    rw [← h1, h2]
    exact hd
  exact boundedMatchAt_eq_wholeWordAt hp hhead hlast

/-! ## Lemmas about the ordered-set and sorting helpers -/

theorem mem_addUnique {α : Type} [DecidableEq α] {acc : List α} {x y : α} :
    x ∈ addUnique acc y ↔ x ∈ acc ∨ x = y := by
  unfold addUnique
  by_cases h : y ∈ acc
  · simp only [if_pos h]
    constructor
    · exact Or.inl
    · rintro (hx | rfl)
      · exact hx
      · exact h
  · simp only [if_neg h, List.mem_append, List.mem_singleton]

theorem nodup_addUnique {α : Type} [DecidableEq α] {acc : List α} {y : α}
    (h : acc.Nodup) : (addUnique acc y).Nodup := by
  unfold addUnique
  by_cases hy : y ∈ acc
  · simpa [if_pos hy] using h
  · simp only [if_neg hy]
    rw [List.nodup_append]
    refine ⟨h, List.nodup_singleton y, ?_⟩
    intro a ha hb
    rw [List.mem_singleton] at hb
    subst hb
    exact hy ha

theorem mem_foldl_addUnique {α : Type} [DecidableEq α] (l : List α) :
    ∀ (acc : List α) (x : α), x ∈ l.foldl addUnique acc ↔ x ∈ acc ∨ x ∈ l := by
  induction l with
  | nil => intro acc x; simp
  | cons a as ih =>
    intro acc x
    simp only [List.foldl_cons]
    rw [ih, mem_addUnique]
    simp [List.mem_cons, or_assoc]

theorem nodup_foldl_addUnique {α : Type} [DecidableEq α] (l : List α) :
    ∀ acc : List α, acc.Nodup → (l.foldl addUnique acc).Nodup := by
  induction l with
  | nil => intro acc h; simpa
  | cons a as ih => intro acc h; exact ih _ (nodup_addUnique h)

theorem mem_orderedSet {α : Type} [DecidableEq α] {l : List α} {x : α} :
    x ∈ orderedSet l ↔ x ∈ l := by
  unfold orderedSet
  rw [mem_foldl_addUnique]
  simp

theorem nodup_orderedSet {α : Type} [DecidableEq α] (l : List α) :
    (orderedSet l).Nodup :=
  nodup_foldl_addUnique l [] (List.nodup_nil)

theorem perm_insertLenDesc (x : List Char) (l : List (List Char)) :
    (insertLenDesc x l).Perm (x :: l) := by
  induction l with
  | nil => simp [insertLenDesc]
  | cons y ys ih =>
    unfold insertLenDesc
    by_cases h : x.length < y.length
    · simp only [if_pos h]
      exact (ih.cons y).trans (List.Perm.swap x y ys)
    · simp only [if_neg h]
      exact List.Perm.refl _

theorem perm_sortLenDesc (l : List (List Char)) : (sortLenDesc l).Perm l := by
  induction l with
  | nil => simp [sortLenDesc]
  | cons x xs ih =>
    unfold sortLenDesc
    exact (perm_insertLenDesc x (sortLenDesc xs)).trans (ih.cons x)

theorem pairwise_insertLenDesc {x : List Char} {l : List (List Char)}
    (h : l.Pairwise (fun a b => b.length ≤ a.length)) :
    (insertLenDesc x l).Pairwise (fun a b => b.length ≤ a.length) := by
  induction l with
  | nil => simp [insertLenDesc]
  | cons y ys ih =>
    rcases List.pairwise_cons.mp h with ⟨hy, hys⟩
    unfold insertLenDesc
    by_cases hlt : x.length < y.length
    · simp only [if_pos hlt]
      apply List.pairwise_cons.mpr
      refine ⟨?_, ih hys⟩
      intro b hb
      have hb' : b ∈ x :: ys := (perm_insertLenDesc x ys).subset hb
      rcases List.mem_cons.mp hb' with rfl | hbys
      · omega
      · exact hy b hbys
    · simp only [if_neg hlt]
      apply List.pairwise_cons.mpr
      refine ⟨?_, h⟩
      intro b hb
      rcases List.mem_cons.mp hb with rfl | hbys
      · omega
      · have := hy b hbys
        omega

theorem pairwise_sortLenDesc (l : List (List Char)) :
    (sortLenDesc l).Pairwise (fun a b => b.length ≤ a.length) := by
  induction l with
  | nil => simp [sortLenDesc]
  | cons x xs ih =>
    unfold sortLenDesc
    exact pairwise_insertLenDesc ih

theorem string_mk_injective : Function.Injective (fun cs : List Char => String.mk cs) := by
  intro a b h
  simpa using congrArg String.data h

theorem string_mk_toList (s : String) : String.mk s.toList = s := by
  cases s
  rfl

theorem string_length_mk (cs : List Char) : (String.mk cs).length = cs.length := rfl

/-! ## Character-class and trimming lemmas -/

theorem not_pySpace_of_wordChar_low {c : Char}
    (h : wordChar (lowChar c) = true) : pySpace c = false := by
  by_cases hs : pySpace c = true
  · exfalso
    unfold pySpace at hs
    simp only [Bool.or_eq_true, decide_eq_true_eq] at hs
    rcases hs with ((((rfl | rfl) | rfl) | rfl) | rfl) | rfl <;>
      exact absurd h (by decide)
  · simpa using hs

theorem not_punct_of_wordChar_low {c : Char}
    (h : wordChar (lowChar c) = true) :
    ((c = ',' : Bool) || (c = '.' : Bool)) = false := by
  by_cases hs : ((c = ',' : Bool) || (c = '.' : Bool)) = true
  · exfalso
    simp only [Bool.or_eq_true, decide_eq_true_eq] at hs
    rcases hs with rfl | rfl <;> exact absurd h (by decide)
  · simpa using hs

theorem dropWhile_cons_false {f : Char → Bool} {c : Char} {cs : List Char}
    (h : f c = false) : (c :: cs).dropWhile f = c :: cs := by
  simp [List.dropWhile_cons, h]

theorem pyStrip_noop {l : List Char} {a d : Char} {as ds : List Char}
    (hl : l = a :: as) (hr : l.reverse = d :: ds)
    (ha : pySpace a = false) (hd : pySpace d = false) : pyStrip l = l := by
  unfold pyStrip
  have h1 : l.dropWhile pySpace = l := by
    rw [hl]
    exact dropWhile_cons_false ha
  rw [h1, hr, dropWhile_cons_false hd, ← hr, List.reverse_reverse]

theorem pyRstripPunct_noop {l : List Char} {d : Char} {ds : List Char}
    (hr : l.reverse = d :: ds)
    (hd : ((d = ',' : Bool) || (d = '.' : Bool)) = false) : pyRstripPunct l = l := by
  unfold pyRstripPunct
  rw [hr, dropWhile_cons_false hd, ← hr, List.reverse_reverse]

theorem strips_noop_of_wordEdged {s : String} (h : wordEdged s = true) :
    pyRstripPunct (pyStrip s.toList) = s.toList := by
  obtain ⟨a, d, as, ds, hst, hrv, ha, hd⟩ := wordEdged_facts h
  rw [pyStrip_noop hst hrv (not_pySpace_of_wordChar_low ha)
    (not_pySpace_of_wordChar_low hd)]
  exact pyRstripPunct_noop hrv (not_punct_of_wordChar_low hd)

/-! ## Lemmas about the bullet synthesizer -/

theorem lowEqStr_iff {a b : String} : lowEqStr a b = true ↔ lowList a = lowList b := by
  unfold lowEqStr
  exact beq_iff_eq

theorem categorize_all_matched :
    ∀ l : List String, (∀ s ∈ l, (matchTemplate s).isSome = true) →
      categorize l = (l.map (fun s => "•   " ++ ((matchTemplate s).getD "")), l, []) := by
  intro l
  induction l with
  | nil => intro _; rfl
  | cons s rest ih =>
    intro h
    have hs := h s (by simp)
    unfold categorize
    rw [ih (fun x hx => h x (by simp [hx]))]
    cases hm : matchTemplate s with
    | none => rw [hm] at hs; simp at hs
    | some t => simp [hm]

theorem mem_unmatched :
    ∀ (l : List String) (s : String), s ∈ l → matchTemplate s = none →
      s ∈ (categorize l).2.2 := by
  intro l
  induction l with
  | nil => intro s hs; simp at hs
  | cons x rest ih =>
    intro s hs hm
    unfold categorize
    rcases List.mem_cons.mp hs with rfl | htail
    · rw [hm]
      simp
    · cases hx : matchTemplate x with
      | none => simpa using Or.inr (ih s htail hm)
      | some t => simpa using ih s htail hm

theorem genBullets_all_matched (missing : List String)
    (h : ∀ s ∈ missing.take 15, (matchTemplate s).isSome = true) :
    generate_missing_skills_bullets missing none =
      (missing.take 15).map (fun s => "•   " ++ ((matchTemplate s).getD "")) := by
  unfold generate_missing_skills_bullets
  cases missing with
  | nil => rfl
  | cons m ms =>
    simp only [List.isEmpty_cons, Bool.false_eq_true, if_false]
    rw [categorize_all_matched _ h]
    rfl

theorem genBullets_of_unmatched (missing : List String) (s : String)
    (hs : s ∈ missing.take 15) (hm : matchTemplate s = none) :
    generate_missing_skills_bullets missing none = [] := by
  unfold generate_missing_skills_bullets
  cases missing with
  | nil => rfl
  | cons m ms =>
    simp only [List.isEmpty_cons, Bool.false_eq_true, if_false]
    have hmem : s ∈ (categorize ((m :: ms).take 15)).2.2 :=
      mem_unmatched _ s hs hm
    have hne : (categorize ((m :: ms).take 15)).2.2.isEmpty = false := by
      cases hc : (categorize ((m :: ms).take 15)).2.2
      · rw [hc] at hmem
        simp at hmem
      · rfl
    rw [hne]
    rfl

/-- Case-insensitive pairwise distinctness of catalog keys. -/
def ciKeysDistinct : List (String × String) → Bool
  | [] => true
  | p :: ps => ps.all (fun q => !(lowEqStr p.1 q.1)) && ciKeysDistinct ps

theorem skill_templates_ciDistinct : ciKeysDistinct skill_templates = true := by
  decide

theorem find_exact_unique :
    ∀ (l : List (String × String)), ciKeysDistinct l = true →
      ∀ (key tmpl skill : String), (key, tmpl) ∈ l → lowEqStr skill key = true →
        l.find? (fun p => lowEqStr skill p.1) = some (key, tmpl) := by
  intro l
  induction l with
  | nil =>
    intro _ key tmpl skill hmem
    simp at hmem
  | cons p ps ih =>
    intro hd key tmpl skill hmem heq
    simp only [ciKeysDistinct, Bool.and_eq_true, List.all_eq_true] at hd
    rcases List.mem_cons.mp hmem with hp | htail
    · subst hp
      rw [List.find?_cons_of_pos _ (by simpa using heq)]
    · have hne : lowList p.1 ≠ lowList key := by
        have := hd.1 (key, tmpl) htail
        simp only [Bool.not_eq_true'] at this
        intro hc
        rw [show lowEqStr p.1 (key, tmpl).1 = true from lowEqStr_iff.mpr hc] at this
        simp at this
      have hpred : lowEqStr skill p.1 = false := by
        rw [Bool.eq_false_iff]
        intro hc
        exact hne ((lowEqStr_iff.mp hc).symm.trans (lowEqStr_iff.mp heq))
      rw [List.find?_cons_of_neg _ (by simp [hpred])]
      exact ih hd.2 key tmpl skill htail heq

theorem matchTemplate_exact {skill key tmpl : String}
    (hmem : (key, tmpl) ∈ skill_templates) (heq : lowEqStr skill key = true) :
    matchTemplate skill = some tmpl := by
  unfold matchTemplate
  rw [find_exact_unique skill_templates skill_templates_ciDistinct key tmpl skill
    hmem heq]

/-! ## Lemmas about the retry loop, the orchestrator, and extraction membership -/

theorem claudeAttempts_succ (g : List String) (r : Nat → Option String)
    (attempt n : Nat) :
    claudeAttempts g r attempt (n + 1) =
      match attemptOutcome g (r attempt) with
      | some bs => (Except.ok bs, [])
      | none =>
        if attempt < 4 then
          ((claudeAttempts g r (attempt + 1) n).1,
            (2 * 2 ^ attempt) :: (claudeAttempts g r (attempt + 1) n).2)
        else (Except.error (), []) := rfl

theorem claudeAttempts_congr (g : List String) (r r2 : Nat → Option String) :
    ∀ fuel attempt : Nat, (∀ a, attempt ≤ a → a < attempt + fuel → r a = r2 a) →
      claudeAttempts g r attempt fuel = claudeAttempts g r2 attempt fuel := by
  intro fuel
  induction fuel with
  | zero => intro attempt _; rfl
  | succ n ih =>
    intro attempt h
    rw [claudeAttempts_succ, claudeAttempts_succ,
      h attempt (Nat.le_refl _) (by omega),
      ih (attempt + 1) (fun a h1 h2 => h a (by omega) (by omega))]

theorem claudeAttempts_error (g : List String) (r : Nat → Option String) :
    ∀ fuel attempt : Nat,
      (∀ a, attempt ≤ a → a < attempt + fuel → attemptOutcome g (r a) = none) →
      (claudeAttempts g r attempt fuel).1 = Except.error () := by
  intro fuel
  induction fuel with
  | zero => intro attempt _; rfl
  | succ n ih =>
    intro attempt h
    rw [claudeAttempts_succ, h attempt (Nat.le_refl _) (by omega)]
    by_cases hlt : attempt < 4
    · simp only [if_pos hlt]
      exact ih (attempt + 1) (fun a h1 h2 => h a (by omega) (by omega))
    · simp only [if_neg hlt]

theorem claudeAttempts_sleeps (g : List String) (r : Nat → Option String) :
    ∀ fuel attempt : Nat,
      (claudeAttempts g r attempt fuel).2 <+: ([2, 4, 8, 16].drop attempt) := by
  intro fuel
  induction fuel with
  | zero => intro attempt; exact List.nil_prefix
  | succ n ih =>
    intro attempt
    rw [claudeAttempts_succ]
    cases ho : attemptOutcome g (r attempt) with
    | some bs => exact List.nil_prefix
    | none =>
      by_cases hlt : attempt < 4
      · simp only [if_pos hlt]
        have hdrop : ([2, 4, 8, 16] : List Nat).drop attempt =
            (2 * 2 ^ attempt) :: ([2, 4, 8, 16] : List Nat).drop (attempt + 1) := by
          interval_cases attempt <;> rfl
        rw [hdrop]
        exact List.cons_prefix_cons.mpr ⟨rfl, ih (attempt + 1)⟩
      · simp only [if_neg hlt]
        exact List.nil_prefix

theorem parse_requirements_missing (rt res : String) :
    (parse_requirements rt res).missing_skills =
      (find_missing_skills (extract_all_skills rt) res).take 20 := rfl

theorem update_resume_no_relevant (env : DocEnv) (rt : String)
    (h1 : (parse_requirements rt (joinNL env.paragraphs)).missing_skills = [])
    (h2 : (parse_requirements rt (joinNL env.paragraphs)).cloud_services = []) :
    update_resume env rt = (none, []) := by
  unfold update_resume
  rw [if_pos ⟨by simp [h1], by simp [h2]⟩]

theorem update_resume_completes (env : DocEnv) (rt : String)
    (h1 : (parse_requirements rt (joinNL env.paragraphs)).missing_skills ≠ []) :
    (update_resume env rt).1 = some env.savedPath := by
  unfold update_resume
  rw [if_neg (fun hc => h1 (List.isEmpty_iff.mp hc.1))]

set_option maxRecDepth 8192 in
theorem known_skills_wellformed :
    known_skills.all (fun s =>
      decide (1 < s.toList.length ∧ ¬ (s.toList.map lowChar) ∈ stopWords)) = true := by
  decide

theorem mem_extract_of_vocab {text skill : String}
    (hv : skill ∈ known_skills)
    (hf : boundedSearchCI skill text = true)
    (hedge : wordEdged skill = true)
    (hlen : 1 < skill.toList.length)
    (hstop : ¬ (skill.toList.map lowChar) ∈ stopWords) :
    skill ∈ extract_all_skills text := by
  unfold extract_all_skills
  have h1 : skill.toList ∈ extractStep1 text.toList := by
    unfold extractStep1
    apply List.mem_map_of_mem
    apply List.mem_filter.mpr
    exact ⟨hv, hf⟩
  have h2 : skill.toList ∈
      orderedSet (extractStep1 text.toList ++ extractFromPatterns text.toList) :=
    mem_orderedSet.mpr (List.mem_append_left _ h1)
  have hclean : extractCleanup skill.toList = some skill.toList := by
    unfold extractCleanup
    rw [strips_noop_of_wordEdged hedge]
    rw [if_pos ⟨by intro hc; rw [hc] at hlen; simp at hlen, hlen, hstop⟩]
  have h3 : skill.toList ∈
      (orderedSet (extractStep1 text.toList ++ extractFromPatterns text.toList)).filterMap
        extractCleanup :=
    List.mem_filterMap.mpr ⟨skill.toList, h2, hclean⟩
  have h5 : skill.toList ∈ sortLenDesc (orderedSet
      ((orderedSet (extractStep1 text.toList ++ extractFromPatterns text.toList)).filterMap
        extractCleanup)) :=
    (perm_sortLenDesc _).mem_iff.mpr (mem_orderedSet.mpr h3)
  exact List.mem_map.mpr ⟨skill.toList, h5, string_mk_toList skill⟩

/-! ## Claims -/

/-- C3 (counterexample): the claim fails as stated.  The vocabulary-style
skill term "C#" is present in the reference text as a case-insensitive
whole word (bounded by spaces), yet `find_missing_skills` reports it as
missing, because the trailing regex word boundary of the search pattern
cannot hold after a non-word character. -/
theorem c3_counterexample :
    wholeWordPresent "C#" "I code in C# daily" = true ∧
    find_missing_skills ["C#"] "I code in C# daily" = ["C#"] :=
  ⟨by decide, by decide⟩

/-- C3 (amended): for skill terms that begin and end with word characters
(where regex word-boundary semantics and whole-word containment coincide),
`find_missing_skills` returns exactly the input skills that are not
present in the reference text under case-insensitive whole-word matching:
present skills are excluded, absent skills are included, and input order
is preserved (the result is a filtering of the input list). -/
theorem c3_amended (skills : List String) (text : String)
    (h : ∀ s ∈ skills, wordEdged s = true) :
    find_missing_skills skills text =
      skills.filter (fun s => !(wholeWordPresent s text)) := by
  unfold find_missing_skills
  apply List.filter_congr
  intro s hs
  rw [boundedSearch_eq_wholeWord (h s hs)]

/-- C3 (witness): the amended theorem applied at a concrete skill list and
reference text. -/
theorem c3_witness :
    find_missing_skills ["Terraform", "Docker"] "Our stack uses docker daily" =
      ["Terraform", "Docker"].filter
        (fun s => !(wholeWordPresent s "Our stack uses docker daily")) :=
  c3_amended ["Terraform", "Docker"] "Our stack uses docker daily" (by decide)

/-- C6: every list returned by the skill extractor has no duplicate
entries (case-sensitive identity) and is sorted by descending string
length. -/
theorem c6_extract_nodup_sorted (text : String) :
    (extract_all_skills text).Nodup ∧
    (extract_all_skills text).Pairwise (fun a b => b.length ≤ a.length) := by
  unfold extract_all_skills
  constructor
  · exact ((perm_sortLenDesc _).nodup_iff.mpr (nodup_orderedSet _)).map
      string_mk_injective
  · apply List.pairwise_map.mpr
    exact (pairwise_sortLenDesc _).imp (fun h => h)

/-- C7: the gap list produced by `parse_requirements` has length at most
20 and is a prefix of the ordered output of the gap detector. -/
theorem c7_gap_list_truncated (requirements_text resume_text : String) :
    (parse_requirements requirements_text resume_text).missing_skills.length ≤ 20 ∧
    (parse_requirements requirements_text resume_text).missing_skills <+:
      find_missing_skills (extract_all_skills requirements_text) resume_text := by
  rw [parse_requirements_missing]
  exact ⟨List.length_take_le _ _, List.take_prefix _ _⟩

/-- C10: the bullet synthesizer only considers the first 15 elements of
its missing-skills input (a skill at index 15 or beyond contributes
nothing), and one external-generation call only depends on the first 10
of the skills handed to it. -/
theorem c10_truncation_bounds :
    (∀ (missing : List String) (client : Option (Nat → Option String)),
      generate_missing_skills_bullets missing client =
        generate_missing_skills_bullets (missing.take 15) client) ∧
    (∀ (skills : List String) (responses : Nat → Option String),
      generate_bullets_with_claude true skills responses =
        generate_bullets_with_claude true (skills.take 10) responses) := by
  constructor
  · intro missing client
    unfold generate_missing_skills_bullets
    have he : (missing.take 15).isEmpty = missing.isEmpty := by
      cases missing <;> rfl
    rw [he, List.take_take]
    simp [Nat.min_self]
  · intro skills responses
    unfold generate_bullets_with_claude
    have he : (skills.take 10).isEmpty = skills.isEmpty := by
      cases skills <;> rfl
    rw [he, List.take_take]
    simp [Nat.min_self]

/-- C1 (counterexample): the claim fails as stated.  For an input of 16
gap skills, each an exact catalog match (so no hard failure is signalled
anywhere), the synthesizer emits only 15 bullets: the 16th skill is
silently dropped by the `missing_skills[:15]` truncation. -/
theorem c1_counterexample :
    sixteenCatalogSkills.length = 16 ∧
    (∀ s ∈ sixteenCatalogSkills, (matchTemplate s).isSome = true) ∧
    (generate_missing_skills_bullets sixteenCatalogSkills none).length = 15 :=
  ⟨rfl, by decide, by decide⟩

/-- C1 (amended): for input lists of at most 15 gap skills in which every
skill has a catalog match (and no generator is configured), the
synthesizer emits exactly one bullet per input skill, in input order:
the output is exactly the input list mapped to each skill's marker-prefixed
template sentence.  (Inputs longer than 15 are truncated, refuting the
unrestricted claim.) -/
theorem c1_amended (missing : List String) (hlen : missing.length ≤ 15)
    (hall : ∀ s ∈ missing, (matchTemplate s).isSome = true) :
    generate_missing_skills_bullets missing none =
      missing.map (fun s => "•   " ++ ((matchTemplate s).getD "")) := by
  have ht : missing.take 15 = missing := List.take_of_length_le hlen
  rw [genBullets_all_matched missing (by rw [ht]; exact hall), ht]

/-- C1 (witness): the amended theorem applied to a concrete two-skill gap
list. -/
theorem c1_witness :
    generate_missing_skills_bullets ["Terraform", "Kubernetes"] none =
      ["Terraform", "Kubernetes"].map
        (fun s => "•   " ++ ((matchTemplate s).getD "")) :=
  c1_amended ["Terraform", "Kubernetes"] (by decide) (by decide)

/-- C2 (counterexample): the claim fails as stated.  The gap skill
"Quantum Flux Capacitor Tuning" is not absent from catalog matching: it
partial-matches the catalog key "Flux" (the key is a substring of the
skill), so the emitted bullet is the Flux template — which does not
contain the skill string — and no generic fallback sentence exists in the
code. -/
theorem c2_counterexample :
    generate_missing_skills_bullets ["Quantum Flux Capacitor Tuning"] none =
      ["•   Implemented Flux for GitOps automation with automated image updates and Helm release management"] ∧
    strIn (lowList "Quantum Flux Capacitor Tuning")
      (lowList "•   Implemented Flux for GitOps automation with automated image updates and Helm release management") = false :=
  ⟨by decide, by decide⟩

/-- C2 (amended): with no generator configured, the gap skill
"Quantum Flux Capacitor Tuning" partial-matches the catalog key "Flux"
and yields that key's template bullet; and in general a gap skill with no
exact or partial catalog match causes the synthesizer to raise its
generator-unavailable error internally, which its own broad exception
handler converts into an empty result list — there is no generic fallback
sentence. -/
theorem c2_amended :
    (generate_missing_skills_bullets ["Quantum Flux Capacitor Tuning"] none =
      ["•   Implemented Flux for GitOps automation with automated image updates and Helm release management"]) ∧
    (∀ (missing : List String) (s : String), s ∈ missing.take 15 →
      matchTemplate s = none →
      generate_missing_skills_bullets missing none = []) := by
  refine ⟨by decide, ?_⟩
  intro missing s hs hm
  exact genBullets_of_unmatched missing s hs hm

/-- C2 (witness): the amended theorem applied to the catalog-unmatched
skill "Glacier" with no generator: the synthesizer returns the empty
list. -/
theorem c2_witness : generate_missing_skills_bullets ["Glacier"] none = [] :=
  c2_amended.2 ["Glacier"] "Glacier" (by decide) (by decide)

/-- C5: exact catalog match takes precedence over partial match.  For a
gap skill equal (case-insensitively) to a catalog key, the bullet emitted
at that skill's position is exactly that key's template sentence after the
uniform marker prefix, regardless of any other key being a substring
match (the exact-match loop runs to completion before the partial-match
loop is consulted). -/
theorem c5_exact_precedence (missing : List String) (i : Nat)
    (skill key tmpl : String)
    (hget : missing[i]? = some skill) (hi : i < 15)
    (hmem : (key, tmpl) ∈ skill_templates)
    (heq : lowEqStr skill key = true)
    (hall : ∀ s ∈ missing.take 15, (matchTemplate s).isSome = true) :
    (generate_missing_skills_bullets missing none)[i]? =
      some ("•   " ++ tmpl) := by
  rw [genBullets_all_matched missing hall, List.getElem?_map]
  have htake : (missing.take 15)[i]? = some skill := by
    rw [List.getElem?_take]
    simp [hi, hget]
  rw [htake]
  simp [matchTemplate_exact hmem heq]

/-- C5 (witness): the lower-cased gap "terraform" is matched exactly (and
case-insensitively) against the catalog key "Terraform", not against any
substring key, and the emitted bullet is that key's template verbatim. -/
theorem c5_witness :
    (generate_missing_skills_bullets ["terraform"] none)[0]? =
      some ("•   Developed reusable Terraform modules for infrastructure provisioning with state management and automated planning") :=
  c5_exact_precedence ["terraform"] 0 "terraform" "Terraform"
    "Developed reusable Terraform modules for infrastructure provisioning with state management and automated planning"
    (by decide) (by decide) (by decide) (by decide) (by decide)

/-- C8: the external-generation call makes at most 5 attempts — the result
depends only on the first five per-attempt responses and the sleep trace
is always a prefix of [2, 4, 8, 16] (the delay doubles after each failed
attempt, starting at base 2, with no sleep after the fifth) — and when
all five attempts fail the call surfaces an error to its caller rather
than a partial or empty success. -/
theorem c8_retry_backoff (skills : List String) (responses : Nat → Option String) :
    (generate_bullets_with_claude true skills responses).2 <+: [2, 4, 8, 16] ∧
    (skills ≠ [] →
      (∀ a, a < 5 → attemptOutcome (skills.take 10) (responses a) = none) →
      (generate_bullets_with_claude true skills responses).1 = Except.error ()) ∧
    (∀ responses2 : Nat → Option String, (∀ a, a < 5 → responses a = responses2 a) →
      generate_bullets_with_claude true skills responses =
        generate_bullets_with_claude true skills responses2) := by
  unfold generate_bullets_with_claude
  cases skills with
  | nil => exact ⟨List.nil_prefix, fun h => absurd rfl h, fun r2 _ => rfl⟩
  | cons s ss =>
    simp only [List.isEmpty_cons, Bool.false_eq_true, if_false, Bool.not_true]
    refine ⟨?_, ?_, ?_⟩
    · exact claudeAttempts_sleeps _ _ 5 0
    · intro _ hall
      exact claudeAttempts_error _ _ 5 0 (fun a h1 h2 => hall a (by omega))
    · intro r2 h
      rw [claudeAttempts_congr _ _ r2 5 0 (fun a h1 h2 => h a (by omega))]

/-- C8 (witness): with every attempt failing, the call errors out and the
sleep trace is within the doubling schedule. -/
theorem c8_witness :
    (generate_bullets_with_claude true ["Kafka"] (fun _ => none)).1 =
      Except.error () ∧
    (generate_bullets_with_claude true ["Kafka"] (fun _ => none)).2 <+:
      [2, 4, 8, 16] := by
  have h := c8_retry_backoff ["Kafka"] (fun _ => none)
  exact ⟨h.2.1 (by decide) (fun a _ => rfl), h.1⟩

/-- C9 (counterexample): the claim fails as stated.  On a run whose gap
list contains a skill with no catalog match and no generator configured,
an internal step does raise (the generator-unavailable RuntimeError at
source line 575), yet `update_resume` does not return `(None, [])`: the
error is caught inside `generate_missing_skills_bullets` (which returns an
empty bullet list) and the run completes normally, returning the saved
output path. -/
theorem c9_counterexample :
    (parse_requirements "Glacier" (joinNL plainEnv.paragraphs)).missing_skills =
      ["Glacier"] ∧
    matchTemplate "Glacier" = none ∧
    update_resume plainEnv "Glacier" = (some "out.docx", []) :=
  ⟨by decide, by decide, by decide⟩

/-- C9 (amended): `update_resume` returns `(None, [])` when no relevant
skills are found (no missing skills and no cloud services); but when the
gap list is nonempty and bullet synthesis yields the empty list — in
particular when the generator-unavailable RuntimeError was raised and
caught inside the synthesizer — `update_resume` completes normally and
returns the saved output path (a non-None first component) rather than
`(None, [])`. -/
theorem c9_amended :
    (∀ (env : DocEnv) (rt : String),
      (parse_requirements rt (joinNL env.paragraphs)).missing_skills = [] →
      (parse_requirements rt (joinNL env.paragraphs)).cloud_services = [] →
      update_resume env rt = (none, [])) ∧
    (∀ (env : DocEnv) (rt : String),
      (parse_requirements rt (joinNL env.paragraphs)).missing_skills ≠ [] →
      generate_missing_skills_bullets
        (parse_requirements rt (joinNL env.paragraphs)).missing_skills
        env.client = [] →
      (update_resume env rt).1 = some env.savedPath) :=
  ⟨update_resume_no_relevant,
   fun env rt h1 _ => update_resume_completes env rt h1⟩

/-- C9 (witness): a concrete run with the catalog-unmatched gap "CouchDB"
and no generator completes and returns the saved path. -/
theorem c9_witness : (update_resume secondEnv "CouchDB").1 = some "saved.docx" :=
  c9_amended.2 secondEnv "CouchDB" (by decide) (by decide)

/-- C4 (counterexample): the claim fails as stated.  The static vocabulary
term "C#" occurs in the job description as a case-insensitive whole word
(bounded by spaces), yet the extractor's result does not include it: the
regex word boundary after the escaped "#" cannot match before a space. -/
theorem c4_counterexample :
    "C#" ∈ known_skills ∧
    wholeWordPresent "C#" "We use C# daily" = true ∧
    ¬ "C#" ∈ extract_all_skills "We use C# daily" :=
  ⟨by decide, by decide, by decide⟩

/-- C4 (amended): for every vocabulary term that begins and ends with word
characters (where regex word-boundary semantics and whole-word containment
coincide), any job description containing the term as a case-insensitive
whole word (or whole phrase) makes the extractor include that term's
canonical vocabulary spelling in its result. -/
theorem c4_amended (text skill : String)
    (hv : skill ∈ known_skills)
    (hedge : wordEdged skill = true)
    (hww : wholeWordPresent skill text = true) :
    skill ∈ extract_all_skills text := by
  have hf : boundedSearchCI skill text = true := by
    rw [boundedSearch_eq_wholeWord hedge]
    exact hww
  have hwf := known_skills_wellformed
  rw [List.all_eq_true] at hwf
  have hprops := of_decide_eq_true (hwf skill hv)
  exact mem_extract_of_vocab hv hf hedge hprops.1 hprops.2

/-- C4 (witness): the amended theorem applied to a concrete job
description containing the vocabulary term "Kubernetes". -/
theorem c4_witness :
    "Kubernetes" ∈ extract_all_skills "We deploy on Kubernetes clusters" :=
  c4_amended "We deploy on Kubernetes clusters" "Kubernetes" (by decide)
    (by decide) (by decide)
